import Mathlib

/-!
Verification development for the ImageResizingAPI task lifecycle and
asynchronous image-derivation pipeline.

The definitions below are a shallow embedding of the TypeScript sources:
`TasksService` (create / findOne / updateTaskStatus), `TasksProcessor`
(processTask / processImage), the `Task` and `Image` mongoose schemas, and
the small file utilities (`getFileExtension`, `calculateMD5` call sites,
node `path` helpers).  Effects on the filesystem, the image library and the
database are captured by an explicit environment record and an explicit
system state that is threaded through the operations.
-/

namespace ImageAPI

/-- Task status enum from `utils/enums/tasks/task-status.enum`
(`PENDING | COMPLETED | FAILED`). -/
inductive TaskStatus
  | pending
  | completed
  | failed
deriving DecidableEq, Repr

/-- ImageInfo interface from `task.entity.ts`: a `{resolution, path}` pair. -/
structure ImageInfo where
  resolution : String
  path : String
deriving DecidableEq, Repr

/-- The Task document from `task.entity.ts`.  The mongoose schema has
`status`, `price`, `originalPath`, `images` (default `[]`),
optional `errorMessage`, plus the automatic `createdAt` / `updatedAt`
timestamps (`timestamps: true`).  Timestamps are modelled as abstract ticks. -/
structure TaskRec where
  status : TaskStatus
  price : ℚ
  originalPath : String
  images : List ImageInfo
  errorMessage : Option String
  createdAt : ℕ
  updatedAt : ℕ
deriving DecidableEq, Repr

/-- The Image document from `image.entity.ts`: `{path, resolution, md5, taskId}`. -/
structure ImageRec where
  path : String
  resolution : String
  md5 : String
  taskId : String
deriving DecidableEq, Repr

/-- The two mongo collections: tasks keyed by id, plus the Image records. -/
structure SysState where
  tasks : List (String × TaskRec)
  imageRecs : List ImageRec
deriving DecidableEq, Repr

/-- Field names of the Task schema: the five declared `@Prop`s of
`task.entity.ts` plus the two automatic timestamp fields. -/
def taskSchemaFields : List String :=
  ["status", "price", "originalPath", "images", "errorMessage",
   "createdAt", "updatedAt"]

/-- From `task-messages.constants.ts` (`taskResponseErrorMessages`). -/
def MISSING_PATH : String := "URL or local image path needed."

/-- From `task-messages.constants.ts` (`taskResponseErrorMessages`). -/
def INVALID_TASK_ID : String := "Invalid task ID"

/-- From `task-messages.constants.ts` (`taskResponseErrorMessages`). -/
def TASK_NOT_FOUND : String := "Task not found"

/-- From `task-processing-messages.constants.ts`
(`taskProcessingErrorMessages.FILE_NOT_FOUND`). -/
def PROCESSING_FILE_NOT_FOUND : String := "File does not exist. Cannot locate file"

/-- From `files-messages.constant.ts` (`fileErrorResponseMessages`). -/
def MALFORMED_URL : String := "Malformed URL"

/-- Message constant `fileErrorResponseMessages.FILE_NOT_FOUND` used by
`TasksService.create` for a missing local file; the constants file that
declares it is not among the captured sources, so only its (nonempty)
name is fixed here.  No claim depends on its exact text. -/
def CREATE_FILE_NOT_FOUND : String := "File not found"

/-- The configured resolution set (`fileData.FILE_RESOLUTION`, the literal
list `['1024', '800']` in `tasks.processor`). -/
def resolutions : List String := ["1024", "800"]

/-- Lower-case a string character-wise (the `toLowerCase()` call). -/
def strToLower (s : String) : String :=
  String.mk (s.toList.map Char.toLower)

/-- Suffix test on strings via their character lists. -/
def strEndsWith (s suff : String) : Bool :=
  List.isSuffixOf suff.toList s.toList

/-- Drop the last n characters of a string. -/
def strDropRight (s : String) (n : ℕ) : String :=
  String.mk (s.toList.take (s.toList.length - n))

/-- Last path segment, as node `path.basename` on slash-separated paths:
the characters after the last slash. -/
def jsBasenameFull (p : String) : String :=
  String.mk ((p.toList.reverse.takeWhile fun c => c ≠ '/').reverse)

/-- Index of the last dot in a character list, if any. -/
def lastDotIndex (cs : List Char) : Option ℕ :=
  ((List.range cs.length).filter fun i => cs.getD i ' ' == '.').getLast?

/-- Node `path.extname`: the suffix of the basename from its last dot;
empty when the basename has no dot or only a leading dot. -/
def jsExtname (p : String) : String :=
  let cs := (jsBasenameFull p).toList
  match lastDotIndex cs with
  | none => ""
  | some 0 => ""
  | some i => String.mk (cs.drop i)

/-- Node `path.basename(p, ext)`: the basename with the suffix `ext`
stripped when it is a proper suffix. -/
def jsBasenameStrip (p ext : String) : String :=
  let b := jsBasenameFull p
  if 0 < ext.length ∧ ext.length < b.length ∧ strEndsWith b ext then
    strDropRight b ext.length
  else b

/-- Node `path.join` restricted to two nonempty segments. -/
def pathJoin (a b : String) : String :=
  if strEndsWith a "/" then a ++ b else a ++ "/" ++ b

/-- From `file.utils.ts`: `getFileExtension` is `path.extname(filePath).toLowerCase()`. -/
def getFileExtension (p : String) : String :=
  strToLower (jsExtname p)

/-- JavaScript truthiness of an optional string field of a DTO: present and
nonempty. -/
def jsTruthy (o : Option String) : Bool :=
  match o with
  | some s => s ≠ ""
  | none => false

/-- Hex digit test for ObjectId validity. -/
def isHexChar (c : Char) : Bool :=
  c.isDigit || ('a' ≤ c && c ≤ 'f') || ('A' ≤ c && c ≤ 'F')

/-- Mongoose `Types.ObjectId.isValid` on strings: a 24-character hex string,
or any 12-character string (12 raw bytes). -/
def isValidObjectId (s : String) : Bool :=
  (s.length == 24 && s.toList.all isHexChar) || s.length == 12

/-- `taskModel.findById`: the first stored task with the given id. -/
def findTask (st : SysState) (id : String) : Option TaskRec :=
  (st.tasks.find? fun p => p.1 == id).map fun p => p.2

/-- One `findByIdAndUpdate` payload: the untyped `updateData` bag built by
the service and the processor.  A `some` field is present in the payload;
`errorMessageU = some none` models an explicit `errorMessage: null`. -/
structure UpdateData where
  statusU : Option TaskStatus
  imagesU : Option (List ImageInfo)
  errorMessageU : Option (Option String)
deriving DecidableEq, Repr

/-- The field names present in an update payload. -/
def UpdateData.keys (u : UpdateData) : List String :=
  (if u.statusU.isSome then ["status"] else []) ++
    (if u.imagesU.isSome then ["images"] else []) ++
      (if u.errorMessageU.isSome then ["errorMessage"] else [])

/-- Apply an update payload to one task document; mongoose `timestamps: true`
also refreshes `updatedAt`. -/
def applyUpdate (t : TaskRec) (u : UpdateData) (now : ℕ) : TaskRec :=
  { t with
    status := u.statusU.getD t.status
    images := u.imagesU.getD t.images
    errorMessage := u.errorMessageU.getD t.errorMessage
    updatedAt := now }

/-- `taskModel.findByIdAndUpdate`: update the matching document, a no-op
when no document has the id. -/
def findByIdAndUpdate (st : SysState) (id : String) (u : UpdateData) (now : ℕ) :
    SysState :=
  { st with
    tasks := st.tasks.map fun p => if p.1 = id then (p.1, applyUpdate p.2 u now) else p }

/-- The effects environment of one operation: filesystem reads, the MD5
hash, the sharp resize/encode/write step, URL validation and download,
the generated uuid, `Math.random()` and the clock, and the two configured
directories (`paths.output` / `paths.input` with their defaults applied). -/
structure Env where
  fileExists : String → Bool
  fileContent : String → List ℕ
  md5 : List ℕ → String
  resize : String → String → Except String Unit
  urlValid : String → Bool
  download : String → Except String Unit
  uuid : String
  rand : ℚ
  now : ℕ
  outputDir : String
  inputDir : String

/-- Result of one `processImage` call: the `{resolution, path}` pair pushed
into `processedImages`, the Image record created in the store, and the
absolute file path the derivative was written to. -/
structure ProcessedImage where
  info : ImageInfo
  imgRec : ImageRec
  filePath : String
deriving DecidableEq, Repr

instance : Inhabited ProcessedImage :=
  ⟨⟨⟨"", ""⟩, ⟨"", "", "", ""⟩, ""⟩⟩

/-- `TasksProcessor.processImage`: compute the output location from the
source basename, the resolution and the MD5 of the original file, run the
sharp resize-and-write step, then create the Image record.  A resize or
write error aborts the call. -/
def processImage (env : Env) (taskId originalPath resolution : String) :
    Except String ProcessedImage :=
  let ext := getFileExtension originalPath
  let originalFileName := jsBasenameStrip originalPath ext
  let md5 := env.md5 (env.fileContent originalPath)
  let outputPath := pathJoin (pathJoin env.outputDir originalFileName) resolution
  let finalFileName := md5 ++ ext
  let finalPath := pathJoin outputPath finalFileName
  match env.resize originalPath resolution with
  | Except.error e => Except.error e
  | Except.ok _ =>
    let relativePath :=
      "/output/" ++ originalFileName ++ "/" ++ resolution ++ "/" ++ finalFileName
    Except.ok
      { info := { resolution := resolution, path := relativePath }
        imgRec :=
          { path := relativePath, resolution := resolution, md5 := md5, taskId := taskId }
        filePath := finalPath }

/-- The `for (const resolution of this.resolutions)` loop of `processTask`:
collect results in order and stop at the first error (the inner `catch`
rethrows), returning the successes so far and the error, if any. -/
def runResolutions (env : Env) (taskId originalPath : String) :
    List String → List ProcessedImage × Option String
  | [] => ([], none)
  | r :: rs =>
    match processImage env taskId originalPath r with
    | Except.error e => ([], some e)
    | Except.ok pi =>
      let rest := runResolutions env taskId originalPath rs
      (pi :: rest.1, rest.2)

/-- The update payload of the success branch of `processTask`:
`{ status: COMPLETED, images: processedImages }`. -/
def completedUpdate (imgs : List ImageInfo) : UpdateData :=
  ⟨some TaskStatus.completed, some imgs, none⟩

/-- The update payload of the catch branch of `processTask`:
`{ status: FAILED, errorMessage: error.message }`. -/
def failedUpdate (msg : String) : UpdateData :=
  ⟨some TaskStatus.failed, none, some (some msg)⟩

/-- `TasksProcessor.processTask`: load the task, check the source file still
exists, process every configured resolution in order, then set COMPLETED
with the collected list; any thrown error is caught and converted into a
FAILED update carrying the error message.  When the task id does not
resolve, the FAILED update targets a missing document and is a no-op. -/
def processTask (env : Env) (st : SysState) (taskId : String) : SysState :=
  match findTask st taskId with
  | none =>
    findByIdAndUpdate st taskId
      (failedUpdate (TASK_NOT_FOUND ++ ": " ++ taskId)) env.now
  | some task =>
    if env.fileExists task.originalPath then
      let results := runResolutions env taskId task.originalPath resolutions
      let st1 := { st with imageRecs := st.imageRecs ++ results.1.map fun pi => pi.imgRec }
      match results.2 with
      | none =>
        findByIdAndUpdate st1 taskId
          (completedUpdate (results.1.map fun pi => pi.info)) env.now
      | some e => findByIdAndUpdate st1 taskId (failedUpdate e) env.now
    else
      findByIdAndUpdate st taskId
        (failedUpdate (PROCESSING_FILE_NOT_FOUND ++ " " ++ task.originalPath)) env.now

/-- `TasksService.updateTaskStatus`: reject a missing task, then build the
`updateData` bag — for PENDING force `errorMessage: null` and `images: []`;
otherwise include `images` when passed and `errorMessage` when passed and
truthy (a nonempty string) — and apply it. -/
def updateTaskStatus (env : Env) (st : SysState) (taskId : String)
    (status : TaskStatus) (images : Option (List ImageInfo))
    (errorMessage : Option String) : Except String SysState :=
  match findTask st taskId with
  | none => Except.error (TASK_NOT_FOUND ++ ": " ++ taskId)
  | some _ =>
    let u : UpdateData :=
      if status = TaskStatus.pending then
        ⟨some status, some [], some none⟩
      else
        ⟨some status, images,
          match errorMessage with
          | some e => if e ≠ "" then some (some e) else none
          | none => none⟩
    Except.ok (findByIdAndUpdate st taskId u env.now)

/-- The `price` of `TasksService.create`:
`+(Math.random() * 45 + 5).toFixed(2)` — the uniform sample scaled into
`[5, 50)` and rounded to two decimals. -/
def genPrice (rand : ℚ) : ℚ :=
  ((round ((rand * 45 + 5) * 100) : ℤ) : ℚ) / 100

/-- The creation request body (`CreateTaskDto`): optional `url` and
optional `localPath`. -/
structure CreateTaskDto where
  url : Option String
  localPath : Option String
deriving DecidableEq, Repr

/-- Errors thrown by `TasksService.create`: plain `Error`s (missing input,
missing local file, failed download) and the `BadRequestException` for a
malformed URL. -/
inductive CreateError
  | plainError (msg : String)
  | badRequest (msg : String)
deriving DecidableEq, Repr

/-- The response of `TasksService.create`: `{taskId, status, price}`. -/
structure CreateResult where
  taskId : String
  status : TaskStatus
  price : ℚ
deriving DecidableEq, Repr

/-- A freshly inserted task document: status PENDING, the generated price,
the resolved original path, the schema defaults for `images` and
`errorMessage`, and creation timestamps. -/
def newTaskRec (price : ℚ) (originalPath : String) (now : ℕ) : TaskRec :=
  { status := TaskStatus.pending, price := price, originalPath := originalPath,
    images := [], errorMessage := none, createdAt := now, updatedAt := now }

/-- `TasksService.create`: require a truthy `url` or `localPath`; generate
the price; resolve `originalPath` — for a `url`, validate it, derive a
uuid-based input filename and download; for a `localPath`, require the file
to exist — then insert the PENDING task and return its identity.  The
asynchronous `processTask` dispatch is fire-and-forget and is modelled as a
separate operation. -/
def create (env : Env) (st : SysState) (newId : String) (dto : CreateTaskDto) :
    Except CreateError (SysState × CreateResult) :=
  if ¬ jsTruthy dto.url ∧ ¬ jsTruthy dto.localPath then
    Except.error (CreateError.plainError MISSING_PATH)
  else
    let price := genPrice env.rand
    if jsTruthy dto.url then
      let url := dto.url.getD ""
      if env.urlValid url then
        let fileName := env.uuid ++ jsExtname url
        let originalPath := pathJoin env.inputDir fileName
        match env.download url with
        | Except.error e =>
          Except.error (CreateError.plainError ("Failed to download image: " ++ e))
        | Except.ok _ =>
          Except.ok
            ({ st with tasks := st.tasks ++ [(newId, newTaskRec price originalPath env.now)] },
             { taskId := newId, status := TaskStatus.pending, price := price })
      else Except.error (CreateError.badRequest MALFORMED_URL)
    else
      let originalPath := dto.localPath.getD "."
      if env.fileExists originalPath then
        Except.ok
          ({ st with tasks := st.tasks ++ [(newId, newTaskRec price originalPath env.now)] },
           { taskId := newId, status := TaskStatus.pending, price := price })
      else
        Except.error
          (CreateError.plainError (CREATE_FILE_NOT_FOUND ++ ": " ++ originalPath))

/-- The error of `TasksService.findOne`: a `NotFoundException` with its
message. -/
inductive FindError
  | notFound (msg : String)
deriving DecidableEq, Repr

/-- The view returned by `TasksService.findOne`: always `taskId`, `status`
and `price`; `images` only for a COMPLETED task; `errorMessage` only for a
FAILED task. -/
structure TaskView where
  taskId : String
  status : TaskStatus
  price : ℚ
  images : Option (List ImageInfo)
  errorMessage : Option String
deriving DecidableEq, Repr

/-- `TasksService.findOne`: reject a syntactically invalid ObjectId with a
`NotFoundException` ("Invalid task ID"), reject a missing record with a
`NotFoundException` ("Task not found"), and otherwise build the view. -/
def findOne (st : SysState) (taskId : String) : Except FindError TaskView :=
  if isValidObjectId taskId then
    match findTask st taskId with
    | none => Except.error (FindError.notFound (TASK_NOT_FOUND ++ ": " ++ taskId))
    | some task =>
      Except.ok
        { taskId := taskId, status := task.status, price := task.price,
          images := if task.status = TaskStatus.completed then some task.images else none,
          errorMessage := if task.status = TaskStatus.failed then task.errorMessage else none }
  else Except.error (FindError.notFound (INVALID_TASK_ID ++ ": " ++ taskId))

/-- One invocation of a public operation, together with the effects
environment it runs against. -/
inductive Op
  | opCreate (env : Env) (newId : String) (dto : CreateTaskDto)
  | opProcess (env : Env) (taskId : String)
  | opUpdate (env : Env) (taskId : String) (status : TaskStatus)
      (images : Option (List ImageInfo)) (errorMessage : Option String)

/-- Apply one operation to the system state; a thrown service error leaves
the stores unchanged. -/
def step (st : SysState) : Op → SysState
  | Op.opCreate env id dto =>
    match create env st id dto with
    | Except.ok r => r.1
    | Except.error _ => st
  | Op.opProcess env id => processTask env st id
  | Op.opUpdate env id s i e =>
    match updateTaskStatus env st id s i e with
    | Except.ok st2 => st2
    | Except.error _ => st

/-- The empty initial state: no tasks, no image records. -/
def initState : SysState := ⟨[], []⟩

/-- The state reached by a sequence of public operations from the empty
initial state. -/
def runOps (ops : List Op) : SysState :=
  ops.foldl step initState

/-- Modelled from the spec: the sharp `resize` call of `processImage`
(`width: parseInt(resolution), withoutEnlargement: true`).  The sharp
library itself is an external dependency, not part of this repository;
per the spec it fits the image within the target width, preserves the
aspect ratio (integer-rounded height) and never enlarges. -/
def resizeFitWidth (srcW srcH targetW : ℕ) : ℕ × ℕ :=
  let outW := min srcW targetW
  (outW, if srcW = 0 then srcH else (2 * srcH * outW + srcW) / (2 * srcW))

/-- The numeric width a resolution token denotes
(`parseInt(resolution)` on the decimal tokens of the configured set). -/
def resolutionWidth (r : String) : ℕ :=
  r.toList.foldl (fun n c => n * 10 + (c.toNat - Char.toNat '0')) 0

/-- Whether an Except value is a success. -/
def exceptOk {ε α : Type} : Except ε α → Bool
  | Except.ok _ => true
  | Except.error _ => false

/-- The message of a failed processImage call (empty for a success). -/
def resErr : Except String ProcessedImage → String
  | Except.error e => e
  | Except.ok _ => ""

/-- The payload of a successful processImage call (default junk for a
failure; only ever read on successes). -/
def forceOk : Except String ProcessedImage → ProcessedImage
  | Except.ok pi => pi
  | Except.error _ => default

theorem runResolutions_eq (env : Env) (tid p : String) (rs : List String) :
    runResolutions env tid p rs =
      ((rs.takeWhile fun r => exceptOk (processImage env tid p r)).map
          fun r => forceOk (processImage env tid p r),
        ((rs.dropWhile fun r => exceptOk (processImage env tid p r)).head?).map
          fun r => resErr (processImage env tid p r)) := by
  induction rs with
  | nil => rfl
  | cons r rs ih =>
    cases h : processImage env tid p r with
    | error e =>
      simp [runResolutions, h, List.takeWhile_cons, List.dropWhile_cons, exceptOk, resErr]
    | ok pi =>
      simp [runResolutions, h, List.takeWhile_cons, List.dropWhile_cons, exceptOk, forceOk, ih]

theorem find?_map_update (id : String) (u : UpdateData) (now : ℕ)
    (l : List (String × TaskRec)) :
    ((l.map fun p => if p.1 = id then (p.1, applyUpdate p.2 u now) else p).find?
        fun p => p.1 == id) =
      (l.find? fun p => p.1 == id).map fun p => (p.1, applyUpdate p.2 u now) := by
  induction l with
  | nil => rfl
  | cons p l ih =>
    cases h : p.1 == id with
    | true =>
      have h2 : p.1 = id := by simpa using h
      simp [List.find?, h, h2]
    | false =>
      have h2 : ¬ p.1 = id := by simpa using h
      simp [List.find?, h, h2, ih, -List.find?_map]

theorem findTask_findByIdAndUpdate (st : SysState) (id : String) (u : UpdateData) (now : ℕ) :
    findTask (findByIdAndUpdate st id u now) id =
      (findTask st id).map fun t => applyUpdate t u now := by
  unfold findTask findByIdAndUpdate
  rw [find?_map_update]
  cases (st.tasks.find? fun p => p.1 == id) <;> rfl

theorem imageRecs_findByIdAndUpdate (st : SysState) (id : String) (u : UpdateData) (now : ℕ) :
    (findByIdAndUpdate st id u now).imageRecs = st.imageRecs := rfl

theorem head?_dropWhile_false {α : Type} (p : α → Bool) (l : List α) (a : α)
    (h : (l.dropWhile p).head? = some a) : p a = false := by
  induction l with
  | nil => simp at h
  | cons x l ih =>
    by_cases hx : p x
    · rw [List.dropWhile_cons_of_pos hx] at h
      exact ih h
    · rw [List.dropWhile_cons_of_neg hx] at h
      simp at h
      rw [← h]
      exact Bool.of_not_eq_true hx

theorem mem_of_head?_dropWhile {α : Type} (p : α → Bool) (l : List α) (a : α)
    (h : (l.dropWhile p).head? = some a) : a ∈ l :=
  (List.dropWhile_sublist p).mem (List.mem_of_mem_head? (by simpa using h))

theorem processTask_run (env : Env) (st : SysState) (taskId : String) (task : TaskRec)
    (hfind : findTask st taskId = some task)
    (hfile : env.fileExists task.originalPath = true) :
    processTask env st taskId =
      (match ((resolutions.dropWhile fun r =>
            exceptOk (processImage env taskId task.originalPath r)).head?) with
        | none =>
          findByIdAndUpdate
            { st with imageRecs := st.imageRecs ++
                (((resolutions.takeWhile fun r =>
                      exceptOk (processImage env taskId task.originalPath r)).map
                  fun r => forceOk (processImage env taskId task.originalPath r)).map
                    fun pi => pi.imgRec) }
            taskId
            (completedUpdate (((resolutions.takeWhile fun r =>
                  exceptOk (processImage env taskId task.originalPath r)).map
                fun r => forceOk (processImage env taskId task.originalPath r)).map
                  fun pi => pi.info))
            env.now
        | some r0 =>
          findByIdAndUpdate
            { st with imageRecs := st.imageRecs ++
                (((resolutions.takeWhile fun r =>
                      exceptOk (processImage env taskId task.originalPath r)).map
                  fun r => forceOk (processImage env taskId task.originalPath r)).map
                    fun pi => pi.imgRec) }
            taskId
            (failedUpdate (resErr (processImage env taskId task.originalPath r0)))
            env.now) := by
  simp only [processTask, hfind, hfile, if_true, runResolutions_eq]
  cases h : ((resolutions.dropWhile fun r =>
      exceptOk (processImage env taskId task.originalPath r)).head?) with
  | none => rfl
  | some r0 => rfl

/-- The part of the spec's images-length invariant that the operations
actually preserve: a PENDING record has an empty images list. -/
def pendingImagesEmpty (st : SysState) : Prop :=
  ∀ p ∈ st.tasks, p.2.status = TaskStatus.pending → p.2.images = []

/-- The full invariant claimed in the spec, per task record:
`images.length` equals the resolution-set size iff COMPLETED, and is 0
for PENDING and FAILED. -/
def imagesInvariant (t : TaskRec) : Prop :=
  (t.images.length = resolutions.length ↔ t.status = TaskStatus.completed) ∧
    ((t.status = TaskStatus.pending ∨ t.status = TaskStatus.failed) →
      t.images.length = 0)

theorem create_ok_tasks (env : Env) (st : SysState) (id : String)
    (dto : CreateTaskDto) (st2 : SysState) (res : CreateResult)
    (h : create env st id dto = Except.ok (st2, res)) :
    ∃ path, st2.tasks = st.tasks ++ [(id, newTaskRec (genPrice env.rand) path env.now)] := by
  simp only [create] at h
  split at h
  · cases h
  · split at h
    · split at h
      · split at h
        · cases h
        · simp only [Except.ok.injEq, Prod.mk.injEq] at h
          exact ⟨_, by rw [← h.1]⟩
      · cases h
    · split at h
      · simp only [Except.ok.injEq, Prod.mk.injEq] at h
        exact ⟨_, by rw [← h.1]⟩
      · cases h

theorem pendingImagesEmpty_update (st : SysState) (id : String) (u : UpdateData)
    (now : ℕ) (hst : pendingImagesEmpty st)
    (hpend : u.statusU = some TaskStatus.pending → u.imagesU = some [])
    (hnone : u.statusU = none → u.imagesU = none) :
    pendingImagesEmpty (findByIdAndUpdate st id u now) := by
  intro p hp hstat
  simp only [findByIdAndUpdate, List.mem_map] at hp
  obtain ⟨q, hq, hpq⟩ := hp
  by_cases hid : q.1 = id
  · rw [if_pos hid] at hpq
    subst hpq
    simp only [applyUpdate] at hstat ⊢
    cases hu : u.statusU with
    | none =>
      rw [hnone hu]
      rw [hu] at hstat
      simp only [Option.getD_none] at hstat ⊢
      exact hst q hq hstat
    | some s =>
      rw [hu] at hstat
      simp only [Option.getD_some] at hstat
      subst hstat
      rw [hpend hu]
      rfl
  · rw [if_neg hid] at hpq
    subst hpq
    exact hst q hq hstat

theorem pendingImagesEmpty_step (st : SysState) (op : Op)
    (hst : pendingImagesEmpty st) : pendingImagesEmpty (step st op) := by
  cases op with
  | opCreate env id dto =>
    simp only [step]
    cases h : create env st id dto with
    | error e => exact hst
    | ok r =>
      obtain ⟨path, htasks⟩ := create_ok_tasks env st id dto r.1 r.2 h
      intro p hp hstat
      rw [htasks, List.mem_append] at hp
      cases hp with
      | inl hmem => exact hst p hmem hstat
      | inr hmem =>
        simp only [List.mem_singleton] at hmem
        subst hmem
        rfl
  | opProcess env id =>
    simp only [step]
    have hst1 : ∀ recs, pendingImagesEmpty { st with imageRecs := recs } := by
      intro recs p hp hstat
      exact hst p hp hstat
    cases hf : findTask st id with
    | none =>
      simp only [processTask, hf]
      exact pendingImagesEmpty_update st id _ env.now hst (by intro h; cases h) (by intro h; cases h)
    | some task =>
      simp only [processTask, hf]
      by_cases hex : env.fileExists task.originalPath
      · rw [if_pos hex]
        cases hres : (runResolutions env id task.originalPath resolutions).2 with
        | none =>
          exact pendingImagesEmpty_update _ id _ env.now (hst1 _)
            (by intro h; cases h) (by intro h; cases h)
        | some e =>
          exact pendingImagesEmpty_update _ id _ env.now (hst1 _)
            (by intro h; cases h) (by intro h; cases h)
      · rw [if_neg hex]
        exact pendingImagesEmpty_update st id _ env.now hst
          (by intro h; cases h) (by intro h; cases h)
  | opUpdate env id s i e =>
    simp only [step]
    cases h : updateTaskStatus env st id s i e with
    | error msg => exact hst
    | ok st2 =>
      unfold updateTaskStatus at h
      cases hf : findTask st id with
      | none => rw [hf] at h; cases h
      | some task =>
        rw [hf] at h
        simp only [Except.ok.injEq] at h
        subst h
        by_cases hs : s = TaskStatus.pending
        · rw [if_pos hs]
          exact pendingImagesEmpty_update st id _ env.now hst
            (fun _ => rfl) (by intro hc; cases hc)
        · rw [if_neg hs]
          refine pendingImagesEmpty_update st id _ env.now hst ?_ (by intro hc; cases hc)
          intro hc
          simp only [Option.some.injEq] at hc
          exact absurd hc hs

theorem pendingImagesEmpty_foldl (ops : List Op) (st : SysState)
    (hst : pendingImagesEmpty st) : pendingImagesEmpty (ops.foldl step st) := by
  induction ops generalizing st with
  | nil => exact hst
  | cons op ops ih => exact ih (step st op) (pendingImagesEmpty_step st op hst)

/-- A concrete effects environment for evaluating the operations: every
file exists, hashing returns the MD5 of the empty byte string, every
resize and download succeeds, uuid "u", random sample 0, clock 0, the
default directories. -/
def envDemo : Env :=
  { fileExists := fun _ => true, fileContent := fun _ => [],
    md5 := fun _ => "d41d8cd98f00b204e9800998ecf8427e",
    resize := fun _ _ => Except.ok (), urlValid := fun _ => true,
    download := fun _ => Except.ok (), uuid := "u", rand := 0, now := 0,
    outputDir := "/tmp/output", inputDir := "/tmp/input" }

/-- Like `envDemo` but the sharp step fails on the "800" resolution. -/
def envFail800 : Env :=
  { envDemo with
    resize := fun _ r => if r = "800" then Except.error "boom" else Except.ok () }

/-- A concrete FAILED task document with a stale images list. -/
def demoTask : TaskRec :=
  { status := TaskStatus.failed, price := 10, originalPath := "/tmp/in/x.jpg",
    images := [⟨"1024", "p"⟩], errorMessage := some "err", createdAt := 0,
    updatedAt := 0 }

/-- A concrete one-task store. -/
def stOne : SysState := ⟨[("a", demoTask)], []⟩

/-- C1 (amended): for every task record reachable through the public
operations (create, processTask, updateTaskStatus), a record with status
PENDING has an empty images list.  The full claimed biconditional
(`images.length = 2` iff COMPLETED, and 0 for FAILED) does not hold on
reachable records, see the counterexample. -/
theorem reachable_pending_images_empty (ops : List Op) (p : String × TaskRec)
    (hp : p ∈ (runOps ops).tasks) (hpend : p.2.status = TaskStatus.pending) :
    p.2.images = [] :=
  pendingImagesEmpty_foldl ops initState
    (fun q hq _ => absurd hq (List.not_mem_nil q)) p hp hpend

/-- Witness for the amended C1 theorem at a concrete one-create trace. -/
theorem reachable_pending_images_empty_witness :
    (("a", newTaskRec (genPrice envDemo.rand) "/tmp/in/x.jpg" envDemo.now) ∈
        (runOps [Op.opCreate envDemo "a" ⟨none, some "/tmp/in/x.jpg"⟩]).tasks ∧
      (newTaskRec (genPrice envDemo.rand) "/tmp/in/x.jpg" envDemo.now).status =
        TaskStatus.pending) ∧
    (newTaskRec (genPrice envDemo.rand) "/tmp/in/x.jpg" envDemo.now).images = [] :=
  ⟨⟨by
      rw [show (runOps [Op.opCreate envDemo "a" ⟨none, some "/tmp/in/x.jpg"⟩]).tasks =
          [("a", newTaskRec (genPrice envDemo.rand) "/tmp/in/x.jpg" envDemo.now)] from rfl]
      exact List.mem_singleton_self _, rfl⟩,
    reachable_pending_images_empty
      [Op.opCreate envDemo "a" ⟨none, some "/tmp/in/x.jpg"⟩]
      ("a", newTaskRec (genPrice envDemo.rand) "/tmp/in/x.jpg" envDemo.now)
      (by
        rw [show (runOps [Op.opCreate envDemo "a" ⟨none, some "/tmp/in/x.jpg"⟩]).tasks =
            [("a", newTaskRec (genPrice envDemo.rand) "/tmp/in/x.jpg" envDemo.now)] from rfl]
        exact List.mem_singleton_self _)
      rfl⟩

/-- C1 (counterexample): after create followed by
updateTaskStatus(COMPLETED, one image) — both public operations — the
stored record is COMPLETED with a single image, so the claimed
`images.length = 2 ↔ COMPLETED` invariant fails on a reachable record. -/
theorem images_invariant_counterexample :
    findTask (runOps
        [Op.opCreate envDemo "a" ⟨none, some "/tmp/in/x.jpg"⟩,
          Op.opUpdate envDemo "a" TaskStatus.completed (some [⟨"1024", "p"⟩]) none]) "a" =
      some { status := TaskStatus.completed, price := genPrice envDemo.rand,
             originalPath := "/tmp/in/x.jpg", images := [⟨"1024", "p"⟩],
             errorMessage := none, createdAt := 0, updatedAt := 0 } ∧
    ¬ imagesInvariant
        { status := TaskStatus.completed, price := genPrice envDemo.rand,
          originalPath := "/tmp/in/x.jpg", images := [⟨"1024", "p"⟩],
          errorMessage := none, createdAt := 0, updatedAt := 0 } := by
  constructor
  · rfl
  · unfold imagesInvariant
    decide

/-- C3 (amended): create fails with the "URL or local image path needed."
error exactly when neither url nor localPath is truthy; when both are
given and the url is well-formed and downloadable, create succeeds using
the url (the localPath is ignored), so supplying both fields is not
rejected. -/
theorem create_requires_source (env : Env) (st : SysState) (newId : String)
    (dto : CreateTaskDto) :
    (jsTruthy dto.url = false → jsTruthy dto.localPath = false →
      create env st newId dto = Except.error (CreateError.plainError MISSING_PATH)) ∧
    (∀ u, dto.url = some u → u ≠ "" → env.urlValid u = true →
      env.download u = Except.ok () →
      create env st newId dto =
        Except.ok
          ({ st with tasks := st.tasks ++
              [(newId, newTaskRec (genPrice env.rand)
                  (pathJoin env.inputDir (env.uuid ++ jsExtname u)) env.now)] },
            { taskId := newId, status := TaskStatus.pending,
              price := genPrice env.rand })) := by
  constructor
  · intro h1 h2
    simp [create, h1, h2]
  · intro u hu hne hvalid hdl
    have hj : jsTruthy (some u) = true := by simp [jsTruthy, hne]
    have hturl : jsTruthy dto.url = true := by rw [hu, hj]
    simp [create, hturl, hu, hvalid, hdl, hj]

/-- Witness for the amended C3 theorem: neither-field fails, both-fields
succeeds via the url. -/
theorem create_requires_source_witness :
    create envDemo initState "a" ⟨none, none⟩ =
        Except.error (CreateError.plainError MISSING_PATH) ∧
    create envDemo initState "b" ⟨some "https://x/y.jpg", some "/tmp/a.jpg"⟩ =
      Except.ok
        ({ initState with tasks := initState.tasks ++
            [("b", newTaskRec (genPrice envDemo.rand)
                (pathJoin envDemo.inputDir (envDemo.uuid ++ jsExtname "https://x/y.jpg"))
                envDemo.now)] },
          { taskId := "b", status := TaskStatus.pending,
            price := genPrice envDemo.rand }) :=
  ⟨(create_requires_source envDemo initState "a" ⟨none, none⟩).1 rfl rfl,
    (create_requires_source envDemo initState "b"
        ⟨some "https://x/y.jpg", some "/tmp/a.jpg"⟩).2
      "https://x/y.jpg" rfl (by decide) rfl rfl⟩

/-- C3 (counterexample): create with both url and localPath set does not
fail with InvalidRequest — it succeeds, taking the url branch. -/
theorem create_both_set_counterexample :
    create envDemo initState "a" ⟨some "https://x/y.jpg", some "/tmp/a.jpg"⟩ =
      Except.ok
        ({ tasks := [("a", newTaskRec (genPrice envDemo.rand) "/tmp/input/u.jpg" 0)],
           imageRecs := [] },
          { taskId := "a", status := TaskStatus.pending,
            price := genPrice envDemo.rand }) := by
  rfl

/-- C4: for every existing task and every images / errorMessage arguments,
updateTaskStatus(taskId, PENDING, images?, errorMessage?) succeeds and the
stored record has an empty images list and a null errorMessage, regardless
of the arguments. -/
theorem updateTaskStatus_pending_resets (env : Env) (st : SysState)
    (taskId : String) (task : TaskRec) (images : Option (List ImageInfo))
    (errorMessage : Option String) (hfind : findTask st taskId = some task) :
    ∃ st2, updateTaskStatus env st taskId TaskStatus.pending images errorMessage =
        Except.ok st2 ∧
      findTask st2 taskId =
        some { task with
          status := TaskStatus.pending
          images := []
          errorMessage := none
          updatedAt := env.now } := by
  refine ⟨findByIdAndUpdate st taskId
      ⟨some TaskStatus.pending, some [], some none⟩ env.now, ?_, ?_⟩
  · simp only [updateTaskStatus, hfind]
    rfl
  · rw [findTask_findByIdAndUpdate, hfind]
    rfl

/-- Witness for the C4 theorem: resetting a concrete FAILED task with a
stale images list and junk arguments clears both fields. -/
theorem updateTaskStatus_pending_resets_witness :
    findTask stOne "a" = some demoTask ∧
    ∃ st2, updateTaskStatus envDemo stOne "a" TaskStatus.pending
        (some [⟨"800", "q"⟩]) (some "ignored") = Except.ok st2 ∧
      findTask st2 "a" =
        some { demoTask with
          status := TaskStatus.pending
          images := []
          errorMessage := none
          updatedAt := envDemo.now } :=
  ⟨rfl,
    updateTaskStatus_pending_resets envDemo stOne "a" demoTask
      (some [⟨"800", "q"⟩]) (some "ignored") rfl⟩

/-- C5 (code bug): the Task schema has no completedAt field at all, and the
two terminal updates of processTask set only status+images (COMPLETED)
resp. status+errorMessage (FAILED) — no completion timestamp is stamped,
although the README documents a completedAt in the task response. -/
theorem terminal_updates_no_completedAt :
    ("completedAt" ∉ taskSchemaFields) ∧
    (∀ imgs : List ImageInfo, (completedUpdate imgs).keys = ["status", "images"]) ∧
    (∀ msg : String, (failedUpdate msg).keys = ["status", "errorMessage"]) :=
  ⟨by decide, fun _ => rfl, fun _ => rfl⟩

/-- C8 (amended): an invalid task id and a well-formed but unknown task id
both make findOne fail with a NotFoundException, but the two messages
differ ("Invalid task ID: ..." vs "Task not found: ..."), so the two cases
are distinguishable by the caller. -/
theorem findOne_notFound_cases (st : SysState) (s : String) :
    (isValidObjectId s = false →
      findOne st s =
        Except.error (FindError.notFound (INVALID_TASK_ID ++ ": " ++ s))) ∧
    (isValidObjectId s = true → findTask st s = none →
      findOne st s =
        Except.error (FindError.notFound (TASK_NOT_FOUND ++ ": " ++ s))) := by
  constructor
  · intro h
    simp [findOne, h]
  · intro h hf
    simp [findOne, h, hf]

/-- Witness for the amended C8 theorem at a malformed id and at a
well-formed unknown id. -/
theorem findOne_notFound_cases_witness :
    (isValidObjectId "xyz" = false ∧
      findOne initState "xyz" =
        Except.error (FindError.notFound (INVALID_TASK_ID ++ ": " ++ "xyz"))) ∧
    (isValidObjectId "65d4a54b89c5e342b2c2c5f6" = true ∧
      findTask initState "65d4a54b89c5e342b2c2c5f6" = none ∧
      findOne initState "65d4a54b89c5e342b2c2c5f6" =
        Except.error
          (FindError.notFound (TASK_NOT_FOUND ++ ": " ++ "65d4a54b89c5e342b2c2c5f6"))) :=
  ⟨⟨by decide, (findOne_notFound_cases initState "xyz").1 (by decide)⟩,
    ⟨by decide, rfl,
      (findOne_notFound_cases initState "65d4a54b89c5e342b2c2c5f6").2 (by decide) rfl⟩⟩

/-- C8 (counterexample): the two NotFound failures carry different
messages, so identifier-invalidity and record-absence are observably
distinct to the caller (the exception filter forwards the message). -/
theorem findOne_invalid_vs_missing_counterexample :
    findOne initState "xyz" =
        Except.error (FindError.notFound "Invalid task ID: xyz") ∧
    findOne initState "65d4a54b89c5e342b2c2c5f6" =
        Except.error (FindError.notFound "Task not found: 65d4a54b89c5e342b2c2c5f6") ∧
    INVALID_TASK_ID ≠ TASK_NOT_FOUND :=
  ⟨rfl, rfl, by decide⟩

theorem findTask_setImageRecs (st : SysState) (recs : List ImageRec) (id : String) :
    findTask { st with imageRecs := recs } id = findTask st id := rfl

/-- C2: for a pipeline run on an existing task whose source file is still
present, and whose processing-step error messages are nonempty: if every
resolution succeeds the task ends COMPLETED with the full images list; if
any resolution fails the task ends FAILED with a nonempty errorMessage and
its stored images field is untouched; and the Image records persisted are
exactly those of the resolutions before the first failure (the run stops
there — later resolutions are not attempted). -/
theorem processTask_all_or_nothing (env : Env) (st : SysState) (taskId : String)
    (task : TaskRec) (hfind : findTask st taskId = some task)
    (hfile : env.fileExists task.originalPath = true)
    (hmsg : ∀ r ∈ resolutions,
      exceptOk (processImage env taskId task.originalPath r) = false →
      resErr (processImage env taskId task.originalPath r) ≠ "") :
    ((∀ r ∈ resolutions, exceptOk (processImage env taskId task.originalPath r) = true) →
      ∃ t2, findTask (processTask env st taskId) taskId = some t2 ∧
        t2.status = TaskStatus.completed ∧
        t2.images.length = resolutions.length) ∧
    ((¬ ∀ r ∈ resolutions, exceptOk (processImage env taskId task.originalPath r) = true) →
      ∃ t2 e, findTask (processTask env st taskId) taskId = some t2 ∧
        t2.status = TaskStatus.failed ∧ t2.errorMessage = some e ∧ e ≠ "" ∧
        t2.images = task.images) ∧
    (processTask env st taskId).imageRecs =
      st.imageRecs ++
        (((resolutions.takeWhile fun r =>
              exceptOk (processImage env taskId task.originalPath r)).map
            fun r => forceOk (processImage env taskId task.originalPath r)).map
          fun pi => pi.imgRec) := by
  rw [processTask_run env st taskId task hfind hfile]
  cases hh : ((resolutions.dropWhile fun r =>
      exceptOk (processImage env taskId task.originalPath r)).head?) with
  | none =>
    have hall : ∀ r ∈ resolutions,
        exceptOk (processImage env taskId task.originalPath r) = true := by
      rw [← List.dropWhile_eq_nil_iff]
      exact List.head?_eq_none_iff.mp hh
    refine ⟨fun _ => ?_, fun hnot => absurd hall hnot, rfl⟩
    refine ⟨applyUpdate task
        (completedUpdate (((resolutions.takeWhile fun r =>
              exceptOk (processImage env taskId task.originalPath r)).map
            fun r => forceOk (processImage env taskId task.originalPath r)).map
          fun pi => pi.info)) env.now, ?_, rfl, ?_⟩
    · rw [findTask_findByIdAndUpdate, findTask_setImageRecs, hfind]
      rfl
    · show (((resolutions.takeWhile _).map _).map _).length = _
      rw [List.takeWhile_eq_self_iff.mpr hall, List.length_map, List.length_map]
  | some r0 =>
    have hok0 := head?_dropWhile_false _ _ _ hh
    have hmem := mem_of_head?_dropWhile _ _ _ hh
    refine ⟨fun hall => absurd (hall r0 hmem) (by rw [hok0]; exact Bool.false_ne_true),
      fun _ => ?_, rfl⟩
    refine ⟨applyUpdate task
        (failedUpdate (resErr (processImage env taskId task.originalPath r0))) env.now,
      resErr (processImage env taskId task.originalPath r0), ?_, rfl, rfl,
      hmsg r0 hmem hok0, rfl⟩
    rw [findTask_findByIdAndUpdate, findTask_setImageRecs, hfind]
    rfl

/-- Witness for the C2 theorem: with the sharp step failing on "800", the
run on a concrete task ends FAILED with the nonempty message and the
stored images are untouched. -/
theorem processTask_all_or_nothing_witness :
    (findTask stOne "a" = some demoTask ∧
      envFail800.fileExists demoTask.originalPath = true ∧
      (∀ r ∈ resolutions,
        exceptOk (processImage envFail800 "a" demoTask.originalPath r) = false →
        resErr (processImage envFail800 "a" demoTask.originalPath r) ≠ "")) ∧
    ((¬ ∀ r ∈ resolutions,
        exceptOk (processImage envFail800 "a" demoTask.originalPath r) = true) →
      ∃ t2 e, findTask (processTask envFail800 stOne "a") "a" = some t2 ∧
        t2.status = TaskStatus.failed ∧ t2.errorMessage = some e ∧ e ≠ "" ∧
        t2.images = demoTask.images) :=
  ⟨⟨rfl, rfl, by decide⟩,
    (processTask_all_or_nothing envFail800 stOne "a" demoTask rfl rfl (by decide)).2.1⟩

/-- C10: when a run on an existing task fails after at least one resolution
succeeded, the Image records already created for the earlier resolutions
stay in the image store, and the FAILED update leaves the task's images,
price, originalPath and createdAt untouched — only status and errorMessage
change. -/
theorem processTask_failure_frame (env : Env) (st : SysState) (taskId : String)
    (task : TaskRec) (hfind : findTask st taskId = some task)
    (hfile : env.fileExists task.originalPath = true)
    (hsome : (resolutions.takeWhile fun r =>
        exceptOk (processImage env taskId task.originalPath r)) ≠ [])
    (hfail : ¬ ∀ r ∈ resolutions,
        exceptOk (processImage env taskId task.originalPath r) = true) :
    (processTask env st taskId).imageRecs =
      st.imageRecs ++
        (((resolutions.takeWhile fun r =>
              exceptOk (processImage env taskId task.originalPath r)).map
            fun r => forceOk (processImage env taskId task.originalPath r)).map
          fun pi => pi.imgRec) ∧
    ∃ t2, findTask (processTask env st taskId) taskId = some t2 ∧
      t2.images = task.images ∧ t2.price = task.price ∧
      t2.originalPath = task.originalPath ∧ t2.createdAt = task.createdAt ∧
      t2.status = TaskStatus.failed ∧ ∃ e, t2.errorMessage = some e := by
  rw [processTask_run env st taskId task hfind hfile]
  cases hh : ((resolutions.dropWhile fun r =>
      exceptOk (processImage env taskId task.originalPath r)).head?) with
  | none =>
    exact absurd (by
      rw [← List.dropWhile_eq_nil_iff]
      exact List.head?_eq_none_iff.mp hh) hfail
  | some r0 =>
    refine ⟨rfl, applyUpdate task
        (failedUpdate (resErr (processImage env taskId task.originalPath r0))) env.now,
      ?_, rfl, rfl, rfl, rfl, rfl,
      ⟨resErr (processImage env taskId task.originalPath r0), rfl⟩⟩
    rw [findTask_findByIdAndUpdate, findTask_setImageRecs, hfind]
    rfl

/-- Witness for the C10 theorem: the "1024" record is persisted and the
task's other fields survive the FAILED update. -/
theorem processTask_failure_frame_witness :
    (findTask stOne "a" = some demoTask ∧
      envFail800.fileExists demoTask.originalPath = true ∧
      (resolutions.takeWhile fun r =>
        exceptOk (processImage envFail800 "a" demoTask.originalPath r)) ≠ [] ∧
      (¬ ∀ r ∈ resolutions,
        exceptOk (processImage envFail800 "a" demoTask.originalPath r) = true)) ∧
    ((processTask envFail800 stOne "a").imageRecs =
      stOne.imageRecs ++
        (((resolutions.takeWhile fun r =>
              exceptOk (processImage envFail800 "a" demoTask.originalPath r)).map
            fun r => forceOk (processImage envFail800 "a" demoTask.originalPath r)).map
          fun pi => pi.imgRec) ∧
    ∃ t2, findTask (processTask envFail800 stOne "a") "a" = some t2 ∧
      t2.images = demoTask.images ∧ t2.price = demoTask.price ∧
      t2.originalPath = demoTask.originalPath ∧ t2.createdAt = demoTask.createdAt ∧
      t2.status = TaskStatus.failed ∧ ∃ e, t2.errorMessage = some e) :=
  ⟨⟨rfl, rfl, by decide, by decide⟩,
    processTask_failure_frame envFail800 stOne "a" demoTask rfl rfl
      (by decide) (by decide)⟩

/-- C9: the generated price `+(Math.random() * 45 + 5).toFixed(2)` is
between 5.00 and 50.00 and has at most two decimal places, for every
random sample in [0, 1). -/
theorem genPrice_bounds (q : ℚ) (h0 : 0 ≤ q) (h1 : q < 1) :
    5 ≤ genPrice q ∧ genPrice q ≤ 50 ∧ ∃ n : ℤ, genPrice q = (n : ℚ) / 100 := by
  have hy0 : (500 : ℚ) ≤ (q * 45 + 5) * 100 := by nlinarith
  have hy1 : (q * 45 + 5) * 100 < 5000 := by nlinarith
  have hr0 : (500 : ℤ) ≤ round ((q * 45 + 5) * 100) := by
    rw [round_eq]
    refine Int.le_floor.mpr ?_
    push_cast
    linarith
  have hr1 : round ((q * 45 + 5) * 100) ≤ 5000 := by
    rw [round_eq]
    have hfl : ⌊(q * 45 + 5) * 100 + 1 / 2⌋ < 5001 := by
      refine Int.floor_lt.mpr ?_
      push_cast
      linarith
    omega
  have hcast0 : (500 : ℚ) ≤ ((round ((q * 45 + 5) * 100) : ℤ) : ℚ) := by
    exact_mod_cast hr0
  have hcast1 : ((round ((q * 45 + 5) * 100) : ℤ) : ℚ) ≤ 5000 := by
    exact_mod_cast hr1
  unfold genPrice
  refine ⟨?_, ?_, ⟨round ((q * 45 + 5) * 100), rfl⟩⟩
  · rw [le_div_iff₀ (by norm_num : (0 : ℚ) < 100)]
    linarith
  · rw [div_le_iff₀ (by norm_num : (0 : ℚ) < 100)]
    linarith

/-- Witness for the C9 theorem at the sample 1/2. -/
theorem genPrice_bounds_witness :
    ((0 : ℚ) ≤ 1 / 2 ∧ (1 / 2 : ℚ) < 1) ∧
    (5 ≤ genPrice (1 / 2) ∧ genPrice (1 / 2) ≤ 50 ∧
      ∃ n : ℤ, genPrice (1 / 2) = (n : ℚ) / 100) :=
  ⟨⟨by norm_num, by norm_num⟩, genPrice_bounds (1 / 2) (by norm_num) (by norm_num)⟩

/-- C6: for every source image and every configured resolution, the
derivative's width is at most the resolution value, never wider than the
source (equal to the source width when the source is narrower than the
target — no enlargement), and the height preserves the source aspect
ratio up to integer rounding: `2*(outH*srcW - srcH*outW)` lies in
`(-srcW, srcW]`. -/
theorem resize_no_upscale (srcW srcH : ℕ) (hw : 0 < srcW) (r : String)
    (hr : r ∈ resolutions) :
    (resizeFitWidth srcW srcH (resolutionWidth r)).1 ≤ resolutionWidth r ∧
    (resizeFitWidth srcW srcH (resolutionWidth r)).1 ≤ srcW ∧
    (srcW < resolutionWidth r →
      (resizeFitWidth srcW srcH (resolutionWidth r)).1 = srcW) ∧
    (-(srcW : ℤ) < 2 * (((resizeFitWidth srcW srcH (resolutionWidth r)).2 : ℤ) * srcW -
        (srcH : ℤ) * (resizeFitWidth srcW srcH (resolutionWidth r)).1) ∧
      2 * (((resizeFitWidth srcW srcH (resolutionWidth r)).2 : ℤ) * srcW -
        (srcH : ℤ) * (resizeFitWidth srcW srcH (resolutionWidth r)).1) ≤ srcW) := by
  have hne : srcW ≠ 0 := hw.ne'
  have h1 : (resizeFitWidth srcW srcH (resolutionWidth r)).1 =
      min srcW (resolutionWidth r) := rfl
  have h2 : (resizeFitWidth srcW srcH (resolutionWidth r)).2 =
      (2 * srcH * min srcW (resolutionWidth r) + srcW) / (2 * srcW) := by
    simp [resizeFitWidth, hne]
  refine ⟨?_, ?_, ?_, ?_⟩
  · rw [h1]; exact Nat.min_le_right _ _
  · rw [h1]; exact Nat.min_le_left _ _
  · intro h; rw [h1]; exact Nat.min_eq_left h.le
  · rw [h1, h2]
    have hb : 0 < 2 * srcW := by omega
    have hle : (2 * srcH * min srcW (resolutionWidth r) + srcW) / (2 * srcW) * (2 * srcW) ≤
        2 * srcH * min srcW (resolutionWidth r) + srcW := Nat.div_mul_le_self _ _
    have hdm := Nat.div_add_mod (2 * srcH * min srcW (resolutionWidth r) + srcW) (2 * srcW)
    have hmod := Nat.mod_lt (2 * srcH * min srcW (resolutionWidth r) + srcW) hb
    zify at hle hdm hmod
    constructor
    · push_cast
      nlinarith [hdm, hmod]
    · push_cast
      nlinarith [hle]

/-- Witness for the C6 theorem at a 500-wide source and the "800" target:
output width 500, height preserved. -/
theorem resize_no_upscale_witness :
    (0 < 500 ∧ "800" ∈ resolutions) ∧
    ((resizeFitWidth 500 300 (resolutionWidth "800")).1 ≤ resolutionWidth "800" ∧
      (resizeFitWidth 500 300 (resolutionWidth "800")).1 ≤ 500 ∧
      (500 < resolutionWidth "800" →
        (resizeFitWidth 500 300 (resolutionWidth "800")).1 = 500) ∧
      (-(500 : ℤ) < 2 * (((resizeFitWidth 500 300 (resolutionWidth "800")).2 : ℤ) * 500 -
          (300 : ℤ) * (resizeFitWidth 500 300 (resolutionWidth "800")).1) ∧
        2 * (((resizeFitWidth 500 300 (resolutionWidth "800")).2 : ℤ) * 500 -
          (300 : ℤ) * (resizeFitWidth 500 300 (resolutionWidth "800")).1) ≤ 500)) :=
  ⟨⟨by decide, by decide⟩, resize_no_upscale 500 300 (by decide) "800" (by decide)⟩

/-- C7: for every successful processImage call, the recorded Image path is
the deterministic "/output/" ++ sourceBaseName ++ "/" ++ resolution ++ "/"
++ md5(source bytes) ++ sourceExtension, the derivative file itself is
written under the configured output root with the same structure, and two
runs over byte-identical sources with the same base name produce the same
recorded path. -/
theorem processImage_path_deterministic (env₁ env₂ : Env) (tid₁ tid₂ p₁ p₂ r : String)
    (pi₁ pi₂ : ProcessedImage)
    (hmd : env₁.md5 = env₂.md5)
    (hcont : env₁.fileContent p₁ = env₂.fileContent p₂)
    (hbase : jsBasenameFull p₁ = jsBasenameFull p₂)
    (h₁ : processImage env₁ tid₁ p₁ r = Except.ok pi₁)
    (h₂ : processImage env₂ tid₂ p₂ r = Except.ok pi₂) :
    pi₁.imgRec.path =
      "/output/" ++ jsBasenameStrip p₁ (getFileExtension p₁) ++ "/" ++ r ++ "/" ++
        (env₁.md5 (env₁.fileContent p₁) ++ getFileExtension p₁) ∧
    pi₁.info.path = pi₁.imgRec.path ∧
    pi₁.imgRec.md5 = env₁.md5 (env₁.fileContent p₁) ∧
    pi₁.filePath =
      pathJoin (pathJoin (pathJoin env₁.outputDir
          (jsBasenameStrip p₁ (getFileExtension p₁))) r)
        (env₁.md5 (env₁.fileContent p₁) ++ getFileExtension p₁) ∧
    pi₁.imgRec.path = pi₂.imgRec.path := by
  have hext : getFileExtension p₁ = getFileExtension p₂ := by
    unfold getFileExtension jsExtname
    rw [hbase]
  have hstrip : jsBasenameStrip p₁ (getFileExtension p₁) =
      jsBasenameStrip p₂ (getFileExtension p₂) := by
    simp only [jsBasenameStrip]
    rw [hbase, hext]
  simp only [processImage] at h₁ h₂
  cases hr₁ : env₁.resize p₁ r with
  | error e => rw [hr₁] at h₁; cases h₁
  | ok u₁ =>
    cases hr₂ : env₂.resize p₂ r with
    | error e => rw [hr₂] at h₂; cases h₂
    | ok u₂ =>
      rw [hr₁] at h₁
      rw [hr₂] at h₂
      simp only [Except.ok.injEq] at h₁ h₂
      subst h₁
      subst h₂
      refine ⟨rfl, rfl, rfl, rfl, ?_⟩
      show "/output/" ++ _ ++ "/" ++ r ++ "/" ++ _ = "/output/" ++ _ ++ "/" ++ r ++ "/" ++ _
      rw [hstrip, hext, hmd, hcont]

/-- Witness for the C7 theorem: two sources with the same basename and the
same bytes yield the same recorded derivative path. -/
theorem processImage_path_deterministic_witness :
    (processImage envDemo "t1" "/tmp/in/a.jpg" "1024" =
        Except.ok
          { info := ⟨"1024", "/output/a/1024/d41d8cd98f00b204e9800998ecf8427e.jpg"⟩,
            imgRec := ⟨"/output/a/1024/d41d8cd98f00b204e9800998ecf8427e.jpg", "1024",
              "d41d8cd98f00b204e9800998ecf8427e", "t1"⟩,
            filePath := "/tmp/output/a/1024/d41d8cd98f00b204e9800998ecf8427e.jpg" } ∧
      processImage envDemo "t2" "/data/a.jpg" "1024" =
        Except.ok
          { info := ⟨"1024", "/output/a/1024/d41d8cd98f00b204e9800998ecf8427e.jpg"⟩,
            imgRec := ⟨"/output/a/1024/d41d8cd98f00b204e9800998ecf8427e.jpg", "1024",
              "d41d8cd98f00b204e9800998ecf8427e", "t2"⟩,
            filePath := "/tmp/output/a/1024/d41d8cd98f00b204e9800998ecf8427e.jpg" }) ∧
    (ImageRec.path ⟨"/output/a/1024/d41d8cd98f00b204e9800998ecf8427e.jpg", "1024",
        "d41d8cd98f00b204e9800998ecf8427e", "t1"⟩ =
      ImageRec.path ⟨"/output/a/1024/d41d8cd98f00b204e9800998ecf8427e.jpg", "1024",
        "d41d8cd98f00b204e9800998ecf8427e", "t2"⟩) :=
  ⟨⟨rfl, rfl⟩,
    (processImage_path_deterministic envDemo envDemo "t1" "t2"
      "/tmp/in/a.jpg" "/data/a.jpg" "1024"
      { info := ⟨"1024", "/output/a/1024/d41d8cd98f00b204e9800998ecf8427e.jpg"⟩,
        imgRec := ⟨"/output/a/1024/d41d8cd98f00b204e9800998ecf8427e.jpg", "1024",
          "d41d8cd98f00b204e9800998ecf8427e", "t1"⟩,
        filePath := "/tmp/output/a/1024/d41d8cd98f00b204e9800998ecf8427e.jpg" }
      { info := ⟨"1024", "/output/a/1024/d41d8cd98f00b204e9800998ecf8427e.jpg"⟩,
        imgRec := ⟨"/output/a/1024/d41d8cd98f00b204e9800998ecf8427e.jpg", "1024",
          "d41d8cd98f00b204e9800998ecf8427e", "t2"⟩,
        filePath := "/tmp/output/a/1024/d41d8cd98f00b204e9800998ecf8427e.jpg" }
      rfl rfl rfl rfl rfl).2.2.2.2⟩

end ImageAPI
